import Mathlib

/-
Shallow embedding of the coil query engine (src/lib.rs, src/lexer.rs,
src/parser.rs) and verification of its specification claims.

Modelling conventions:
- Rust `i64` is modelled as `Int` (overflow checks are made explicit where the
  source performs them, i.e. in numeric-literal parsing).
- Rust `f64` is modelled by the structure `F64`: a rational payload plus a NaN
  flag.  The only aspects of `f64` the verified claims exercise are (a) its
  position as a `FieldValue` variant in derived `PartialEq`/`PartialOrd`
  (cross-variant comparisons never inspect the payload) and (b) equality and
  ordering being partial at NaN, both of which `F64` captures.  Infinities and
  IEEE rounding are not modelled; no claim depends on them.
- A Rust function that can panic (`unwrap` on `None`/`Err`, out-of-bounds
  indexing, `todo!`) is modelled with an `Option` result where `none` stands
  for the panic/abort.
- Mutation of `&mut self` is modelled by returning the updated value.
- Loops are modelled either by structural recursion or, where the source loop
  consumes tokens/characters, by a fuel parameter; the top-level entry points
  supply fuel strictly larger than the number of remaining items, which is
  enough because every loop iteration in the source consumes at least one
  item.  Fuel exhaustion returns `none` and is unreachable at those entry
  points.
-/

namespace Coil

/-- Model of Rust `f64` for the purposes of this development: a rational value
together with a NaN flag.  Derived `PartialEq` on `f64` makes NaN unequal to
everything (including itself) and derived `PartialOrd` makes comparisons with
NaN return `None`; both are reflected below. -/
structure F64 where
  val : Rat
  isNaN : Bool
deriving DecidableEq

/-- `PartialEq` for `f64`: NaN is equal to nothing. -/
def F64.peq (a b : F64) : Bool :=
  !a.isNaN && !b.isNaN && decide (a.val = b.val)

/-- `PartialOrd::partial_cmp` for `f64`: `none` when either side is NaN. -/
def F64.partialCmp (a b : F64) : Option Ordering :=
  if a.isNaN || b.isNaN then none
  else if a.val < b.val then some Ordering.lt
  else if b.val < a.val then some Ordering.gt
  else some Ordering.eq

/-- `Ordering` comparison of two machine integers (used by derived
`PartialOrd` on `i64` payloads). -/
def intCmp (a b : Int) : Ordering :=
  if a < b then Ordering.lt else if b < a then Ordering.gt else Ordering.eq

/-- `Ordering` comparison of two strings (derived `PartialOrd` on `String` is
lexicographic over the underlying character sequence, which UTF-8 byte order
agrees with). -/
def strCmp (a b : String) : Ordering :=
  if a < b then Ordering.lt else if b < a then Ordering.gt else Ordering.eq

/-- `Ordering` comparison of two natural numbers (variant discriminants). -/
def natCmp (a b : Nat) : Ordering :=
  if a < b then Ordering.lt else if b < a then Ordering.gt else Ordering.eq

/-- The error enumeration of src/lib.rs (`CoilError`). -/
inductive CoilError where
  | NotEnoughValues
  | TooManyValues
  | TableAlreadyExists
  | TableDoesntExist
  | DatabaseAlreadyExists
  | DatabaseDoesntExist
  | MismatchedTypes
deriving DecidableEq

/-- The `ExpressionType` enumeration of src/parser.rs. -/
inductive ExpressionType where
  | Not | Negate | Positive
  | Equal | NotEqual
  | LessThan | LessThanOrEqual
  | GreaterThan | GreaterThanOrEqual
  | And | Or | Xor
  | Add | Subtract | Multiply | Divide
  | Power | Modulus
  | Integer (n : Int) | Float (f : F64) | String (s : String)
  | None | Identifier (s : String)
deriving DecidableEq

/-- The `Expression` struct of src/parser.rs: a node tag plus optional boxed
left and right operands. -/
inductive Expression where
  | mk (expression_type : ExpressionType)
       (l_operand : Option Expression)
       (r_operand : Option Expression)

def Expression.expression_type : Expression → ExpressionType
  | .mk t _ _ => t

def Expression.l_operand : Expression → Option Expression
  | .mk _ l _ => l

def Expression.r_operand : Expression → Option Expression
  | .mk _ _ r => r

/-- Shorthand for a leaf `Expression` (both operands absent). -/
def Expression.leaf (t : ExpressionType) : Expression :=
  Expression.mk t none none

/-- The `FieldValue` enumeration of src/lib.rs.  The source derives
`PartialEq` and `PartialOrd`; those derived operations are modelled by
`FieldValue.peq` and `FieldValue.partialCmp` below. -/
inductive FieldValue where
  | None
  | Text (s : String)
  | Integer (n : Int)
  | Float (f : F64)
deriving DecidableEq

/-- Variant discriminant in declaration order, which derived `PartialOrd`
compares first. -/
def FieldValue.variantIdx : FieldValue → Nat
  | .None => 0
  | .Text _ => 1
  | .Integer _ => 2
  | .Float _ => 3

/-- Derived `PartialEq` on `FieldValue`: equal variants compare payloads
(`f64` payloads with NaN inequality); different variants are unequal. -/
def FieldValue.peq : FieldValue → FieldValue → Bool
  | .None, .None => true
  | .Text a, .Text b => a == b
  | .Integer a, .Integer b => a == b
  | .Float a, .Float b => F64.peq a b
  | _, _ => false

/-- Derived `PartialOrd::partial_cmp` on `FieldValue`: values of different
variants are ordered by declaration order of the variants; values of the same
variant compare payloads (partially, for `f64`). -/
def FieldValue.partialCmp : FieldValue → FieldValue → Option Ordering
  | .None, .None => some Ordering.eq
  | .Text a, .Text b => some (strCmp a b)
  | .Integer a, .Integer b => some (intCmp a b)
  | .Float a, .Float b => F64.partialCmp a b
  | a, b => some (natCmp a.variantIdx b.variantIdx)

/-- Rust `<` via `PartialOrd` (true exactly when `partial_cmp` is `Less`). -/
def FieldValue.plt (a b : FieldValue) : Bool :=
  a.partialCmp b == some Ordering.lt

/-- Rust `<=` via `PartialOrd` (`Less` or `Equal`). -/
def FieldValue.ple (a b : FieldValue) : Bool :=
  a.partialCmp b == some Ordering.lt || a.partialCmp b == some Ordering.eq

/-- Rust `>` via `PartialOrd` (`Greater`). -/
def FieldValue.pgt (a b : FieldValue) : Bool :=
  a.partialCmp b == some Ordering.gt

/-- Rust `>=` via `PartialOrd` (`Greater` or `Equal`). -/
def FieldValue.pge (a b : FieldValue) : Bool :=
  a.partialCmp b == some Ordering.gt || a.partialCmp b == some Ordering.eq

/-- `FieldValue::from_expression_type` of src/lib.rs: literal expression tags
convert to the corresponding value; every other tag falls to the catch-all
and becomes `FieldValue::None`. -/
def FieldValue.from_expression_type : ExpressionType → FieldValue
  | .None => FieldValue.None
  | .String string => FieldValue.Text string
  | .Integer number => FieldValue.Integer number
  | .Float number => FieldValue.Float number
  | _ => FieldValue.None

/-- The `FieldType` enumeration of src/lib.rs. -/
inductive FieldType where
  | Text
  | Number
deriving DecidableEq

/-- `FieldType::check_field_value_type` of src/lib.rs: `None` is compatible
with every column type; `Text` requires a Text column; `Integer` and `Float`
require a Number column. -/
def FieldType.check_field_value_type (self : FieldType) (field_value : FieldValue) : Bool :=
  match field_value with
  | .None => true
  | .Text _ => self == FieldType.Text
  | .Integer _ | .Float _ => self == FieldType.Number

/-- The `Column` struct of src/lib.rs. -/
structure Column where
  name : String
  rows : List FieldValue
  field_type : FieldType
deriving DecidableEq

/-- `Column::new`. -/
def Column.new (name : String) (field_type : FieldType) : Column :=
  { name := name, rows := [], field_type := field_type }

/-- `Column::push`: appends the value if it is type-compatible, otherwise
returns `Err(CoilError::MismatchedTypes)` and leaves the column unchanged. -/
def Column.push (self : Column) (value : FieldValue) : Except CoilError Column :=
  if self.field_type.check_field_value_type value then
    Except.ok { self with rows := self.rows ++ [value] }
  else
    Except.error CoilError.MismatchedTypes

/-- The effect of `let _ = self.columns[i].push(values[i])` in
`Table::new_row`: the `Result` of `Column::push` is discarded, so on a type
mismatch the column is simply left unchanged. -/
def Column.pushDiscard (self : Column) (value : FieldValue) : Column :=
  match self.push value with
  | Except.ok c => c
  | Except.error _ => self

/-- The `Table` struct of src/lib.rs. -/
structure Table where
  name : String
  columns : List Column
deriving DecidableEq

/-- `Table::new`. -/
def Table.new (name : String) (columns : List Column) : Table :=
  { name := name, columns := columns }

/-- `Table::new_row`: returns `Some(error)` on an arity mismatch (checked
before any mutation); otherwise pushes each value to its column, discarding
each `Column::push` result, and returns `None` (success).  The updated table
is returned alongside.  When the arity check passes the index loop
`for i in 0..values.len()` visits exactly the pairs produced by `zipWith`. -/
def Table.new_row (self : Table) (values : List FieldValue) :
    Option CoilError × Table :=
  if values.length > self.columns.length then
    (some CoilError.TooManyValues, self)
  else if values.length < self.columns.length then
    (some CoilError.NotEnoughValues, self)
  else
    (none, { self with columns := List.zipWith Column.pushDiscard self.columns values })

/-- The `Row` struct of src/lib.rs: a `HashMap<String, FieldValue>`.  The map
is modelled as an association list where insertion conses at the front, so
lookup (which takes the first match) returns the most recent insertion,
matching `HashMap::insert`/`get`. -/
structure Row where
  columns : List (String × FieldValue)
deriving DecidableEq

/-- `HashMap::insert` as used by `Row::from_columns`. -/
def Row.insertField (self : Row) (key : String) (value : FieldValue) : Row :=
  { columns := (key, value) :: self.columns }

/-- `Row::get`. -/
def Row.get (self : Row) (field : String) : Option FieldValue :=
  self.columns.lookup field

/-- Loop of `Row::from_columns`; `column.rows[index]` panics (modelled as
`none`) when `index` is out of bounds for some column. -/
def Row.from_columns_aux (row : Row) (columns : List Column) (index : Nat) :
    Option Row :=
  match columns with
  | [] => some row
  | column :: rest =>
    match column.rows.get? index with
    | some value => Row.from_columns_aux (row.insertField column.name value) rest index
    | none => none

/-- `Row::from_columns`: builds the name-to-value map from every column at
`index`. -/
def Row.from_columns (columns : List Column) (index : Nat) : Option Row :=
  Row.from_columns_aux { columns := [] } columns index

/-- Total version of the `Row::from_columns` loop, meaningful when `index` is
in bounds for every column (out-of-bounds entries default to
`FieldValue.None`). -/
def Row.fromColumnsTotalAux (row : Row) (columns : List Column) (index : Nat) : Row :=
  match columns with
  | [] => row
  | column :: rest =>
    Row.fromColumnsTotalAux
      (row.insertField column.name (column.rows.getD index FieldValue.None)) rest index

/-- Total row materialization at an in-bounds index. -/
def Row.fromColumnsTotal (columns : List Column) (index : Nat) : Row :=
  Row.fromColumnsTotalAux { columns := [] } columns index

/-- `Row::check_condition` of src/lib.rs.  The source unwraps both operands
(panic, modelled `none`, when absent), resolves each operand: an `Identifier`
is looked up in the row (panic when the field is missing), any other tag is
converted with `FieldValue::from_expression_type` (so a nested operator node
such as `Or` becomes `FieldValue::None`).  It then matches only the six
comparison tags at the top level; every other tag (including `And`, `Or`,
`Xor`) falls to the `_ => false` arm.  It does not recurse. -/
def Row.check_condition (self : Row) (condition : Expression) : Option Bool := do
  let l_operand ← condition.l_operand
  let r_operand ← condition.r_operand
  let l_value ←
    match l_operand.expression_type with
    | .Identifier identifier => self.get identifier
    | et => some (FieldValue.from_expression_type et)
  let r_value ←
    match r_operand.expression_type with
    | .Identifier identifier => self.get identifier
    | et => some (FieldValue.from_expression_type et)
  some (match condition.expression_type with
    | .Equal => l_value.peq r_value
    | .NotEqual => !(l_value.peq r_value)
    | .LessThan => l_value.plt r_value
    | .LessThanOrEqual => l_value.ple r_value
    | .GreaterThan => l_value.pgt r_value
    | .GreaterThanOrEqual => l_value.pge r_value
    | _ => false)

/-- Conditional-retrieval loop of `Table::get_rows` over the index list. -/
def Table.get_rows_loop_cond (columns : List Column) (row_condition : Expression)
    (rows : List Row) : List Nat → Option (List Row)
  | [] => some rows
  | i :: rest => do
    let row ← Row.from_columns columns i
    let b ← row.check_condition row_condition
    Table.get_rows_loop_cond columns row_condition (if b then rows ++ [row] else rows) rest

/-- Unconditional-retrieval loop of `Table::get_rows`. -/
def Table.get_rows_loop_all (columns : List Column) (rows : List Row) :
    List Nat → Option (List Row)
  | [] => some rows
  | i :: rest => do
    let row ← Row.from_columns columns i
    Table.get_rows_loop_all columns (rows ++ [row]) rest

/-- `Table::get_rows`: iterates `i` over `0..self.columns[0].rows.len()`
(indexing `columns[0]` panics, modelled `none`, when the table has no
columns), materializes each row, and either keeps all rows or only those for
which `check_condition` is true.  In the source the function always returns
`Some(rows)` on reaching the end; the `Option` here additionally absorbs the
panics of `columns[0]`, `Row::from_columns` and `check_condition`. -/
def Table.get_rows (self : Table) (condition : Option Expression) :
    Option (List Row) :=
  match self.columns with
  | [] => none
  | c0 :: _ =>
    match condition with
    | some row_condition =>
      Table.get_rows_loop_cond self.columns row_condition [] (List.range c0.rows.length)
    | none =>
      Table.get_rows_loop_all self.columns [] (List.range c0.rows.length)

/-- The `DatabaseConfig` struct of src/lib.rs (an owned path buffer). -/
structure DatabaseConfig where
  path : String
deriving DecidableEq

/-- `DatabaseConfig::default` pushes "./" onto an empty path buffer. -/
def DatabaseConfig.default : DatabaseConfig :=
  { path := "./" }

/-- The `Database` struct of src/lib.rs. -/
structure Database where
  name : String
  config : DatabaseConfig
  tables : List Table
deriving DecidableEq

/-- `Database::new`. -/
def Database.new (name : String) (config : DatabaseConfig) : Database :=
  { name := name, config := config, tables := [] }

/-- `Database::new_table`: scans the existing tables for the name and returns
`Err(TableAlreadyExists)` without touching anything when found; otherwise
pushes a fresh table (the source then returns a mutable reference to it,
which is subsumed here by returning the updated database). -/
def Database.new_table (self : Database) (name : String) (columns : List Column) :
    Option CoilError × Database :=
  if self.tables.any (fun t => t.name == name) then
    (some CoilError.TableAlreadyExists, self)
  else
    (none, { self with tables := self.tables ++ [Table.new name columns] })

/-- `Database::get_table`: first table with the given name. -/
def Database.get_table (self : Database) (name : String) : Option Table :=
  self.tables.find? (fun t => t.name == name)

/-- The `Token` enumeration.  The first seven groups are the variants declared
in src/lexer.rs.  The final group (`Add`, `Subtract`, `Divide`, `Power`,
`Modulus`, `Not`, `LeftParenthesis`, `RightParenthesis`) consists of variants
that src/parser.rs refers to (in `parse_term`, `parse_factor`, `parse_unary`
and `parse_primary`) but that are absent from the lexer's declaration; they
are included here so that the parser can be embedded as written.  The lexer
never produces them. -/
inductive Token where
  | Get | Put | Update | Create | Delete
  | In | From | Where
  | Table | Database
  | NumberType | TextType
  | Equal | NotEqual
  | LessThan | LessThanOrEqual
  | GreaterThan | GreaterThanOrEqual
  | And | Or | Xor
  | Star | Comma | Period | Colon
  | LeftBracket | RightBracket
  | Integer (n : Int) | Float (f : F64) | String (s : String)
  | None | Identifier (s : String)
  | Add | Subtract | Divide | Power | Modulus | Not
  | LeftParenthesis | RightParenthesis
deriving DecidableEq

/-- Numeric value of a list of decimal digit characters (meaningful only when
every character is an ASCII digit). -/
def decVal (cs : List Char) : Nat :=
  cs.foldl (fun acc c => acc * 10 + (c.toNat - 48)) 0

/-- Decimal digit run → value; `none` when empty or containing a non-digit
(mirrors the all-or-nothing failure of Rust integer parsing). -/
def decDigitsVal (cs : List Char) : Option Nat :=
  if cs.isEmpty then none
  else if cs.all Char.isDigit then some (decVal cs) else none

/-- Value of a single hexadecimal digit character. -/
def hexDigitVal (c : Char) : Option Nat :=
  if c.isDigit then some (c.toNat - 48)
  else if 'a' ≤ c && c ≤ 'f' then some (c.toNat - 87)
  else if 'A' ≤ c && c ≤ 'F' then some (c.toNat - 55)
  else none

/-- Hexadecimal digit run → value; `none` when empty or containing an invalid
digit. -/
def hexDigitsVal (cs : List Char) : Option Nat :=
  if cs.isEmpty then none
  else cs.foldlM (fun acc c => (hexDigitVal c).map (fun v => acc * 16 + v)) 0

/-- Rust `str::parse::<i64>` (on the string's character sequence): optional
sign, one or more decimal digits, nothing else; out-of-range values are
errors. -/
def parseI64 (cs : List Char) : Option Int :=
  let (neg, ds) :=
    match cs with
    | '-' :: rest => (true, rest)
    | '+' :: rest => (false, rest)
    | _ => (false, cs)
  match decDigitsVal ds with
  | none => none
  | some n =>
    if neg then
      if n ≤ 2 ^ 63 then some (-(n : Int)) else none
    else
      if n ≤ 2 ^ 63 - 1 then some (n : Int) else none

/-- Rust `i64::from_str_radix(_, 16)` (on the string's character sequence):
optional sign, one or more hex digits, nothing else; out-of-range values are
errors. -/
def parseHexI64 (cs : List Char) : Option Int :=
  let (neg, ds) :=
    match cs with
    | '-' :: rest => (true, rest)
    | '+' :: rest => (false, rest)
    | _ => (false, cs)
  match hexDigitsVal ds with
  | none => none
  | some n =>
    if neg then
      if n ≤ 2 ^ 63 then some (-(n : Int)) else none
    else
      if n ≤ 2 ^ 63 - 1 then some (n : Int) else none

/-- Rust `str::trim_start_matches("0x")`: strips every leading occurrence of
the pattern. -/
def trimStart0x : List Char → List Char
  | '0' :: 'x' :: rest => trimStart0x rest
  | cs => cs

/-- Rust `str::parse::<f64>` restricted to the numeric forms the lexer can
hand it: optional sign, digits with an optional fractional part, optional
exponent.  The payload is kept as an exact rational (no IEEE rounding, no
infinities; the `inf`/`nan` spellings are unreachable from the lexer's
digit-initiated scan and are not modelled).  No verified claim inspects a
`Float` payload, only its presence. -/
def parseF64 (cs : List Char) : Option F64 :=
  let (neg, cs1) :=
    match cs with
    | '-' :: rest => (true, rest)
    | '+' :: rest => (false, rest)
    | _ => (false, cs)
  let intPart := cs1.takeWhile Char.isDigit
  let cs2 := cs1.dropWhile Char.isDigit
  let (fracPart, cs3) :=
    match cs2 with
    | '.' :: rest => (rest.takeWhile Char.isDigit, rest.dropWhile Char.isDigit)
    | _ => ([], cs2)
  let expPart : Option (Int × List Char) :=
    match cs3 with
    | 'e' :: rest | 'E' :: rest =>
      let (eneg, rest2) :=
        match rest with
        | '-' :: r => (true, r)
        | '+' :: r => (false, r)
        | _ => (false, rest)
      let ds := rest2.takeWhile Char.isDigit
      if ds.isEmpty then none
      else some ((if eneg then -(decVal ds : Int) else (decVal ds : Int)),
                 rest2.dropWhile Char.isDigit)
    | _ => some (0, cs3)
  match expPart with
  | none => none
  | some (e, rest) =>
    if rest.isEmpty && !(intPart.isEmpty && fracPart.isEmpty) then
      let mant : Rat :=
        (decVal intPart : Rat) + (decVal fracPart : Rat) / ((10 : Rat) ^ fracPart.length)
      let mag : Rat :=
        if 0 ≤ e then mant * (10 : Rat) ^ e.toNat else mant / ((10 : Rat) ^ (-e).toNat)
      some { val := if neg then -mag else mag, isNaN := false }
    else none

/-- `is_valid_number_char` of `Lexer::parse_number`: digits plus the
characters supporting negative, floating-point and hexadecimal forms.  (Rust
uses `char::is_numeric`, which agrees with ASCII digits on every input the
claims exercise.) -/
def Lexer.is_valid_number_char (c : Char) : Bool :=
  c.isDigit || c == '-' || c == '.' || c == 'x' ||
  c == 'a' || c == 'b' || c == 'c' || c == 'd' || c == 'e' || c == 'f'

/-- `Lexer::parse_string`: `cur` is the first character after the opening
quote; scans up to the closing quote.  The final `consume('"')` calls
`next().unwrap()`, which panics (modelled `none`) when the input ends before
a closing quote is found. -/
def Lexer.parse_string (cur : Char) (cs : List Char) : Option (Token × List Char) :=
  let string := cur :: cs.takeWhile (fun c => c != '"')
  let rest := cs.dropWhile (fun c => c != '"')
  match rest with
  | [] => none
  | c :: rest2 =>
    if c == '"' then some (Token.String (String.mk string), rest2)
    else none

/-- `Lexer::parse_number`: scans while the lowercased next character is a
valid number character, lowercases the scanned run (kept as its character sequence), then classifies: Float if
it contains a dot, hex Integer if it contains an `x` (parsed after stripping
leading `0x`), decimal Integer otherwise.  Each `unwrap` on a failed parse is
a panic, modelled by a `none` token. -/
def Lexer.parse_number (cur : Char) (cs : List Char) : Option Token × List Char :=
  let taken := cs.takeWhile (fun c => Lexer.is_valid_number_char c.toLower)
  let rest := cs.dropWhile (fun c => Lexer.is_valid_number_char c.toLower)
  let number := (cur :: taken).map Char.toLower
  if number.contains '.' then
    match parseF64 number with
    | some f => (some (Token.Float f), rest)
    | none => (none, rest)
  else if number.contains 'x' then
    match parseHexI64 (trimStart0x number) with
    | some n => (some (Token.Integer n), rest)
    | none => (none, rest)
  else
    match parseI64 number with
    | some n => (some (Token.Integer n), rest)
    | none => (none, rest)

/-- `Lexer::parse_keyword_or_identifier`: scans while alphanumeric, matches
the lowercased run (as a character sequence) against the keyword table, and
otherwise yields an `Identifier` with the original casing.  (Rust uses the Unicode
`char::is_alphanumeric`; ASCII inputs coincide with `Char.isAlphanum`.) -/
def Lexer.parse_keyword_or_identifier (cur : Char) (cs : List Char) :
    Token × List Char :=
  let taken := cs.takeWhile Char.isAlphanum
  let rest := cs.dropWhile Char.isAlphanum
  let string := String.mk (cur :: taken)
  let token :=
    match (cur :: taken).map Char.toLower with
    | ['g','e','t'] => Token.Get
    | ['p','u','t'] => Token.Put
    | ['u','p','d','a','t','e'] => Token.Update
    | ['c','r','e','a','t','e'] => Token.Create
    | ['d','e','l','e','t','e'] => Token.Delete
    | ['i','n'] => Token.In
    | ['f','r','o','m'] => Token.From
    | ['w','h','e','r','e'] => Token.Where
    | ['t','a','b','l','e'] => Token.Table
    | ['d','a','t','a','b','a','s','e'] => Token.Database
    | ['a','n','d'] => Token.And
    | ['o','r'] => Token.Or
    | ['x','o','r'] => Token.Xor
    | ['n','u','m','b','e','r'] => Token.NumberType
    | ['t','e','x','t'] => Token.TextType
    | ['n','o','n','e'] => Token.None
    | _ => Token.Identifier string
  (token, rest)

/-- The character-dispatch loop of `Lexer::lex`.  Fuel decreases once per
loop iteration; every iteration consumes at least one character, so the fuel
supplied by `Lexer.lex` can never run out.  Points to note, all mirroring the
source: the `<` and `>` arms only peek at a following `=` — they do not
consume it, so the `=` is re-dispatched on the next iteration and emits an
extra `Equal` token; the `!` arm unwraps `peek` (panicking, `none`, at end of
input) and emits nothing when the next character is not `=` (the source's
bare TODO arm). -/
def Lexer.lexGo : Nat → List Char → List Token → Option (List Token)
  | 0, _, _ => none
  | fuel + 1, cs, tokens =>
    match cs with
    | [] => some tokens
    | c :: rest =>
      if c == ' ' || c == '\r' || c == '\n' then Lexer.lexGo fuel rest tokens
      else if c == '*' then Lexer.lexGo fuel rest (tokens ++ [Token.Star])
      else if c == ',' then Lexer.lexGo fuel rest (tokens ++ [Token.Comma])
      else if c == '.' then Lexer.lexGo fuel rest (tokens ++ [Token.Period])
      else if c == '[' then Lexer.lexGo fuel rest (tokens ++ [Token.LeftBracket])
      else if c == ']' then Lexer.lexGo fuel rest (tokens ++ [Token.RightBracket])
      else if c == ':' then Lexer.lexGo fuel rest (tokens ++ [Token.Colon])
      else if c == '"' then
        match rest with
        | [] => none
        | c2 :: rest2 =>
          match Lexer.parse_string c2 rest2 with
          | some (tok, rest3) => Lexer.lexGo fuel rest3 (tokens ++ [tok])
          | none => none
      else if c == '<' then
        if rest.head? == some '=' then
          Lexer.lexGo fuel rest (tokens ++ [Token.LessThanOrEqual])
        else
          Lexer.lexGo fuel rest (tokens ++ [Token.LessThan])
      else if c == '>' then
        if rest.head? == some '=' then
          Lexer.lexGo fuel rest (tokens ++ [Token.GreaterThanOrEqual])
        else
          Lexer.lexGo fuel rest (tokens ++ [Token.GreaterThan])
      else if c == '=' then Lexer.lexGo fuel rest (tokens ++ [Token.Equal])
      else if c == '!' then
        match rest.head? with
        | none => none
        | some c2 =>
          if c2 == '=' then Lexer.lexGo fuel rest (tokens ++ [Token.NotEqual])
          else Lexer.lexGo fuel rest tokens
      else if '0' ≤ c ∧ c ≤ '9' then
        match Lexer.parse_number c rest with
        | (some tok, rest2) => Lexer.lexGo fuel rest2 (tokens ++ [tok])
        | (none, _) => none
      else
        let (tok, rest2) := Lexer.parse_keyword_or_identifier c rest
        Lexer.lexGo fuel rest2 (tokens ++ [tok])

/-- `Lexer::lex`: runs the dispatch loop over the whole input.  `none` models
a panic inside the loop. -/
def Lexer.lex (src : String) : Option (List Token) :=
  Lexer.lexGo (src.length + 1) src.toList []

/-- The `Operation` enumeration of src/parser.rs. -/
inductive Operation where
  | Get | Put | Update | Create | Delete
deriving DecidableEq

/-- The `Query` struct of src/parser.rs. -/
structure Query where
  operation : Operation
  database : Option String
  table : Option String
  values : Option (List FieldValue)
  columns : Option (List Column)
  condition : Option Expression

/-- `Query::new`. -/
def Query.new (operation : Operation) : Query :=
  { operation := operation, database := none, table := none,
    values := none, columns := none, condition := none }

/-- The parser cursor: `Parser::parse` stores the token vector reversed and
`next` pops from its back, which is consumption from the front of the
original sequence; `previous` remembers the last popped token. -/
structure PState where
  tokens : List Token
  previous : Option Token

/-- `Parser::next`: pops the next token (setting `previous` to it, or to
`None` at end of input). -/
def Parser.next (s : PState) : Option Token × PState :=
  match s.tokens with
  | [] => (none, { s with previous := none })
  | t :: ts => (some t, { tokens := ts, previous := some t })

/-- `Parser::peek`. -/
def Parser.peek (s : PState) : Option Token :=
  s.tokens.head?

/-- `Parser::peek_back`. -/
def Parser.peek_back (s : PState) : Option Token :=
  s.previous

/-- `Parser::consume`: if the next token equals one of `expected`, advance
past it and report true; otherwise (or at end of input) report false without
advancing. -/
def Parser.consume (expected : List Token) (s : PState) : Bool × PState :=
  match Parser.peek s with
  | none => (false, s)
  | some t => if expected.contains t then (true, (Parser.next s).2) else (false, s)

/-- The `is_primary_type` closure of `Parser::parse_primary`. -/
def Parser.is_primary_type (t : Token) : Bool :=
  match t with
  | Token.None | Token.Integer _ | Token.Float _
  | Token.String _ | Token.Identifier _ => true
  | _ => false

/-- `Parser::parse_primary`.  The source's `while` loop returns from its body
on every path, so it runs at most one iteration: if the next token is not a
primary (or the input is exhausted) the function yields `None`; otherwise the
token is consumed and becomes a leaf expression.  The grouping branch at
src/parser.rs:425-432 is unreachable: it requires `expression_type.is_none()`,
but every token admitted by `is_primary_type` produces a `Some` expression
type (in particular `LeftParenthesis` is not a primary type, so parenthesized
groups make `parse_primary` yield `None`); the dead branch is therefore not
reproduced here. -/
def Parser.parse_primary (s : PState) : Option Expression × PState :=
  match Parser.peek s with
  | none => (none, s)
  | some t =>
    if Parser.is_primary_type t then
      let (n, s1) := Parser.next s
      match n with
      | some Token.None => (some (Expression.leaf ExpressionType.None), s1)
      | some (Token.Integer number) => (some (Expression.leaf (ExpressionType.Integer number)), s1)
      | some (Token.Float number) => (some (Expression.leaf (ExpressionType.Float number)), s1)
      | some (Token.String string) => (some (Expression.leaf (ExpressionType.String string)), s1)
      | some (Token.Identifier identifier) => (some (Expression.leaf (ExpressionType.Identifier identifier)), s1)
      | _ => (none, s1)
    else (none, s)

/-- Operator loop of `Parser::parse_unary`.  Faithful to the source, which —
despite its name — parses a *primary first* and then treats a following
`not`/`+`/`-` as an operator taking that already-parsed expression as
`l_operand` and a following primary as `r_operand`.  (This is what makes
`1 + 2` consume the `+` at the unary level, see the claim about precedence.)
Fuel decreases per iteration; each iteration consumes the operator token. -/
def Parser.parse_unary_loop : Nat → Option Expression → PState → Option Expression × PState
  | 0, _, s => (none, s)
  | fuel + 1, expression, s =>
    let (ok, s1) := Parser.consume [Token.Not, Token.Add, Token.Subtract] s
    if ok then
      let expression_type : Option ExpressionType :=
        match Parser.peek_back s1 with
        | some Token.Not => some ExpressionType.Not
        | some Token.Add => some ExpressionType.Positive
        | some Token.Subtract => some ExpressionType.Negate
        | _ => none
      match expression_type with
      | none => (none, s1)
      | some et =>
        let (r_expression, s2) := Parser.parse_primary s1
        Parser.parse_unary_loop fuel (some (Expression.mk et expression r_expression)) s2
    else (expression, s1)

/-- `Parser::parse_unary`. -/
def Parser.parse_unary (fuel : Nat) (s : PState) : Option Expression × PState :=
  let (expression, s1) := Parser.parse_primary s
  Parser.parse_unary_loop fuel expression s1

/-- Operator loop of `Parser::parse_factor` (`*`,`/`,`^`,`%`). -/
def Parser.parse_factor_loop : Nat → Option Expression → PState → Option Expression × PState
  | 0, _, s => (none, s)
  | fuel + 1, expression, s =>
    let (ok, s1) := Parser.consume [Token.Star, Token.Divide, Token.Power, Token.Modulus] s
    if ok then
      let expression_type : Option ExpressionType :=
        match Parser.peek_back s1 with
        | some Token.Star => some ExpressionType.Multiply
        | some Token.Divide => some ExpressionType.Divide
        | some Token.Power => some ExpressionType.Power
        | some Token.Modulus => some ExpressionType.Modulus
        | _ => none
      match expression_type with
      | none => (none, s1)
      | some et =>
        let (r_expression, s2) := Parser.parse_unary fuel s1
        Parser.parse_factor_loop fuel (some (Expression.mk et expression r_expression)) s2
    else (expression, s1)

/-- `Parser::parse_factor`. -/
def Parser.parse_factor (fuel : Nat) (s : PState) : Option Expression × PState :=
  let (expression, s1) := Parser.parse_unary fuel s
  Parser.parse_factor_loop fuel expression s1

/-- Operator loop of `Parser::parse_term` (`+`,`-`). -/
def Parser.parse_term_loop : Nat → Option Expression → PState → Option Expression × PState
  | 0, _, s => (none, s)
  | fuel + 1, expression, s =>
    let (ok, s1) := Parser.consume [Token.Add, Token.Subtract] s
    if ok then
      let expression_type : Option ExpressionType :=
        match Parser.peek_back s1 with
        | some Token.Add => some ExpressionType.Add
        | some Token.Subtract => some ExpressionType.Subtract
        | _ => none
      match expression_type with
      | none => (none, s1)
      | some et =>
        let (r_expression, s2) := Parser.parse_factor fuel s1
        Parser.parse_term_loop fuel (some (Expression.mk et expression r_expression)) s2
    else (expression, s1)

/-- `Parser::parse_term`. -/
def Parser.parse_term (fuel : Nat) (s : PState) : Option Expression × PState :=
  let (expression, s1) := Parser.parse_factor fuel s
  Parser.parse_term_loop fuel expression s1

/-- Operator loop of `Parser::parse_comparison` (`>`,`>=`,`<`,`<=`). -/
def Parser.parse_comparison_loop : Nat → Option Expression → PState → Option Expression × PState
  | 0, _, s => (none, s)
  | fuel + 1, expression, s =>
    let (ok, s1) := Parser.consume
      [Token.GreaterThan, Token.GreaterThanOrEqual, Token.LessThan, Token.LessThanOrEqual] s
    if ok then
      let expression_type : Option ExpressionType :=
        match Parser.peek_back s1 with
        | some Token.GreaterThan => some ExpressionType.GreaterThan
        | some Token.GreaterThanOrEqual => some ExpressionType.GreaterThanOrEqual
        | some Token.LessThan => some ExpressionType.LessThan
        | some Token.LessThanOrEqual => some ExpressionType.LessThanOrEqual
        | _ => none
      match expression_type with
      | none => (none, s1)
      | some et =>
        let (r_expression, s2) := Parser.parse_term fuel s1
        Parser.parse_comparison_loop fuel (some (Expression.mk et expression r_expression)) s2
    else (expression, s1)

/-- `Parser::parse_comparison`. -/
def Parser.parse_comparison (fuel : Nat) (s : PState) : Option Expression × PState :=
  let (expression, s1) := Parser.parse_term fuel s
  Parser.parse_comparison_loop fuel expression s1

/-- Operator loop of `Parser::parse_equality` (`=`,`!=`). -/
def Parser.parse_equality_loop : Nat → Option Expression → PState → Option Expression × PState
  | 0, _, s => (none, s)
  | fuel + 1, expression, s =>
    let (ok, s1) := Parser.consume [Token.Equal, Token.NotEqual] s
    if ok then
      let expression_type : Option ExpressionType :=
        match Parser.peek_back s1 with
        | some Token.Equal => some ExpressionType.Equal
        | some Token.NotEqual => some ExpressionType.NotEqual
        | _ => none
      match expression_type with
      | none => (none, s1)
      | some et =>
        let (r_expression, s2) := Parser.parse_comparison fuel s1
        Parser.parse_equality_loop fuel (some (Expression.mk et expression r_expression)) s2
    else (expression, s1)

/-- `Parser::parse_equality`. -/
def Parser.parse_equality (fuel : Nat) (s : PState) : Option Expression × PState :=
  let (expression, s1) := Parser.parse_comparison fuel s
  Parser.parse_equality_loop fuel expression s1

/-- Operator loop of `Parser::parse_and`. -/
def Parser.parse_and_loop : Nat → Option Expression → PState → Option Expression × PState
  | 0, _, s => (none, s)
  | fuel + 1, expression, s =>
    let (ok, s1) := Parser.consume [Token.And] s
    if ok then
      match Parser.peek_back s1 with
      | some Token.And =>
        let (r_expression, s2) := Parser.parse_equality fuel s1
        Parser.parse_and_loop fuel
          (some (Expression.mk ExpressionType.And expression r_expression)) s2
      | _ => (none, s1)
    else (expression, s1)

/-- `Parser::parse_and`. -/
def Parser.parse_and (fuel : Nat) (s : PState) : Option Expression × PState :=
  let (expression, s1) := Parser.parse_equality fuel s
  Parser.parse_and_loop fuel expression s1

/-- Operator loop of `Parser::parse_or`. -/
def Parser.parse_or_loop : Nat → Option Expression → PState → Option Expression × PState
  | 0, _, s => (none, s)
  | fuel + 1, expression, s =>
    let (ok, s1) := Parser.consume [Token.Or] s
    if ok then
      match Parser.peek_back s1 with
      | some Token.Or =>
        let (r_expression, s2) := Parser.parse_and fuel s1
        Parser.parse_or_loop fuel
          (some (Expression.mk ExpressionType.Or expression r_expression)) s2
      | _ => (none, s1)
    else (expression, s1)

/-- `Parser::parse_or`: the expression-grammar entry point. -/
def Parser.parse_or (fuel : Nat) (s : PState) : Option Expression × PState :=
  let (expression, s1) := Parser.parse_and fuel s
  Parser.parse_or_loop fuel expression s1

/-- Column-declaration loop of `Parser::parse_create_query`. -/
def Parser.parse_create_columns (query : Query) :
    Nat → List Column → PState → Option Query × PState
  | 0, _, s => (none, s)
  | fuel + 1, columns, s =>
    let (t, s1) := Parser.next s
    match t with
    | some (Token.Identifier name) =>
      let (okColon, s2) := Parser.consume [Token.Colon] s1
      if okColon then
        let (ft, s3) := Parser.next s2
        let field_type : Option FieldType :=
          match ft with
          | some Token.NumberType => some FieldType.Number
          | some Token.TextType => some FieldType.Text
          | _ => none
        match field_type with
        | none => (none, s3)
        | some field_type =>
          let columns := columns ++ [Column.new name field_type]
          let (okComma, s4) := Parser.consume [Token.Comma] s3
          if okComma then Parser.parse_create_columns query fuel columns s4
          else
            let (okRB, s5) := Parser.consume [Token.RightBracket] s4
            if okRB then (some { query with columns := some columns }, s5)
            else (none, s5)
      else (none, s2)
    | _ => (none, s1)

/-- `Parser::parse_create_query`. -/
def Parser.parse_create_query (fuel : Nat) (s : PState) : Option Query × PState :=
  let query := Query.new Operation.Create
  let (keyword, s1) := Parser.next s
  match keyword with
  | none => (none, s1)
  | some keyword =>
    let (identifier, s2) := Parser.next s1
    match identifier with
    | some (Token.Identifier name) =>
      match keyword with
      | Token.Database => (some { query with database := some name }, s2)
      | Token.Table =>
        let query := { query with table := some name }
        let (okLB, s3) := Parser.consume [Token.LeftBracket] s2
        if okLB then Parser.parse_create_columns query fuel [] s3
        else (none, s3)
      | _ => (none, s2)
    | _ => (none, s2)

/-- `Parser::parse_get_query`.  Note that when `WHERE` is consumed the result
of `parse_or` is stored in `query.condition` whether or not it is `Some`: a
malformed condition silently becomes the absence of a condition. -/
def Parser.parse_get_query (fuel : Nat) (s : PState) : Option Query × PState :=
  let query := Query.new Operation.Get
  let (okStar, s1) := Parser.consume [Token.Star] s
  if okStar then
    let (okFrom, s2) := Parser.consume [Token.From] s1
    if okFrom then
      let (identifier, s3) := Parser.next s2
      match identifier with
      | some (Token.Identifier name) =>
        let query := { query with table := some name }
        let (okWhere, s4) := Parser.consume [Token.Where] s3
        if okWhere then
          let (condition, s5) := Parser.parse_or fuel s4
          (some { query with condition := condition }, s5)
        else (some query, s4)
      | _ => (none, s3)
    else (none, s2)
  else (none, s1)

/-- Value-list loop of `Parser::parse_put_query`. -/
def Parser.parse_put_values :
    Nat → List FieldValue → PState → Option (List FieldValue) × PState
  | 0, _, s => (none, s)
  | fuel + 1, values, s =>
    let (t, s1) := Parser.next s
    match t with
    | none => (none, s1)
    | some Token.Comma => Parser.parse_put_values fuel values s1
    | some (Token.Float number) => Parser.parse_put_values fuel (values ++ [FieldValue.Float number]) s1
    | some (Token.Integer number) => Parser.parse_put_values fuel (values ++ [FieldValue.Integer number]) s1
    | some (Token.String text) => Parser.parse_put_values fuel (values ++ [FieldValue.Text text]) s1
    | some Token.None => Parser.parse_put_values fuel (values ++ [FieldValue.None]) s1
    | some Token.RightBracket => (some values, s1)
    | some _ => (none, s1)

/-- `Parser::parse_put_query`.  After the value list and `IN`, a non-identifier
token leaves `query.table` as `None` but still yields `Some(query)`. -/
def Parser.parse_put_query (fuel : Nat) (s : PState) : Option Query × PState :=
  let query := Query.new Operation.Put
  let (okLB, s1) := Parser.consume [Token.LeftBracket] s
  if okLB then
    let (values, s2) := Parser.parse_put_values fuel [] s1
    match values with
    | none => (none, s2)
    | some values =>
      let query := { query with values := some values }
      let (okIn, s3) := Parser.consume [Token.In] s2
      if okIn then
        let (t, s4) := Parser.next s3
        match t with
        | none => (none, s4)
        | some (Token.Identifier name) => (some { query with table := some name }, s4)
        | some _ => (some query, s4)
      else (none, s3)
  else (none, s1)

/-- `Parser::parse_update_query`: the body is `todo!`, an unconditional
abort; modelled as `none`. -/
def Parser.parse_update_query (s : PState) : Option Query × PState :=
  (none, s)

/-- `Parser::parse_delete_query`: consumes two tokens, and on the shapes the
source accepts it then hits `todo!` (an abort, modelled `none`); every other
shape returns `None`.  The net result is `none` in all cases, but the token
consumption is reproduced. -/
def Parser.parse_delete_query (s : PState) : Option Query × PState :=
  let (keyword, s1) := Parser.next s
  match keyword with
  | none => (none, s1)
  | some keyword =>
    let (identifier, s2) := Parser.next s1
    match identifier with
    | some (Token.Identifier _) =>
      match keyword with
      | Token.Database => (none, s2)
      | Token.Table => (none, s2)
      | _ => (none, s2)
    | _ => (none, s2)

/-- `Parser::parse_query`: dispatch on the first token; any token other than
the five operation keywords (or end of input) yields `None`. -/
def Parser.parse_query (fuel : Nat) (s : PState) : Option Query × PState :=
  let (t, s1) := Parser.next s
  match t with
  | none => (none, s1)
  | some Token.Get => Parser.parse_get_query fuel s1
  | some Token.Put => Parser.parse_put_query fuel s1
  | some Token.Update => Parser.parse_update_query s1
  | some Token.Create => Parser.parse_create_query fuel s1
  | some Token.Delete => Parser.parse_delete_query s1
  | some _ => (none, s1)

/-- `Parser::parse`: reverses the tokens into the pop-from-the-back cursor
(equivalently, consumes them front to back) and calls
`parse_query(...).unwrap()` — a `None` result is a panic, modelled `none`.
The fuel exceeds the token count, so no loop can exhaust it. -/
def Parser.parse (tokens : List Token) : Option Query :=
  (Parser.parse_query (tokens.length + 1) { tokens := tokens, previous := none }).1

/-! ## Supporting lemmas -/

/-- When the index is in bounds for every column, the `Row::from_columns`
loop cannot hit the out-of-bounds panic and agrees with the total
materialization. -/
theorem from_columns_aux_total (index : Nat) (columns : List Column) :
    ∀ (r : Row), (∀ c ∈ columns, index < c.rows.length) →
      Row.from_columns_aux r columns index
        = some (Row.fromColumnsTotalAux r columns index) := by
  induction columns with
  | nil => intro r _; rfl
  | cons c rest ih =>
    intro r h
    have hc : index < c.rows.length := h c (List.mem_cons_self c rest)
    have hv : c.rows.get? index = some (c.rows.get ⟨index, hc⟩) := List.get?_eq_get hc
    have hd : c.rows.getD index FieldValue.None = c.rows.get ⟨index, hc⟩ := by
      have := List.getD_eq_getElem?_getD c.rows index FieldValue.None
      rw [this, ← List.get?_eq_getElem?, hv, Option.getD_some]
    simp only [Row.from_columns_aux, Row.fromColumnsTotalAux, hv, hd]
    exact ih _ (fun c2 hc2 => h c2 (List.mem_cons_of_mem _ hc2))

/-- `Row::from_columns` at an everywhere-in-bounds index. -/
theorem from_columns_total (index : Nat) (columns : List Column)
    (h : ∀ c ∈ columns, index < c.rows.length) :
    Row.from_columns columns index = some (Row.fromColumnsTotal columns index) :=
  from_columns_aux_total index columns { columns := [] } h

/-- The unconditional `get_rows` loop appends the materialized rows in index
order. -/
theorem get_rows_loop_all_total (columns : List Column) :
    ∀ (idxs : List Nat) (rows : List Row),
      (∀ i ∈ idxs, ∀ c ∈ columns, i < c.rows.length) →
      Table.get_rows_loop_all columns rows idxs
        = some (rows ++ idxs.map (Row.fromColumnsTotal columns)) := by
  intro idxs
  induction idxs with
  | nil => intro rows _; simp [Table.get_rows_loop_all]
  | cons i rest ih =>
    intro rows h
    have h1 : Row.from_columns columns i = some (Row.fromColumnsTotal columns i) :=
      from_columns_total i columns (h i (List.mem_cons_self i rest))
    simp only [Table.get_rows_loop_all, h1, Option.bind_eq_bind, Option.some_bind,
      List.map_cons]
    rw [ih (rows ++ [Row.fromColumnsTotal columns i])
      (fun j hj => h j (List.mem_cons_of_mem _ hj))]
    simp

/-- The conditional `get_rows` loop keeps, in index order, exactly the rows
whose condition evaluates to `true`, provided no evaluation panics. -/
theorem get_rows_loop_cond_total (columns : List Column) (cond : Expression) :
    ∀ (idxs : List Nat) (rows : List Row),
      (∀ i ∈ idxs, ∀ c ∈ columns, i < c.rows.length) →
      (∀ i ∈ idxs, (Row.fromColumnsTotal columns i).check_condition cond ≠ none) →
      Table.get_rows_loop_cond columns cond rows idxs
        = some (rows ++ (idxs.map (Row.fromColumnsTotal columns)).filter
            (fun r => r.check_condition cond == some true)) := by
  intro idxs
  induction idxs with
  | nil => intro rows _ _; simp [Table.get_rows_loop_cond]
  | cons i rest ih =>
    intro rows h hc
    have h1 : Row.from_columns columns i = some (Row.fromColumnsTotal columns i) :=
      from_columns_total i columns (h i (List.mem_cons_self i rest))
    obtain ⟨b, hb⟩ : ∃ b, (Row.fromColumnsTotal columns i).check_condition cond = some b := by
      cases hcc : (Row.fromColumnsTotal columns i).check_condition cond with
      | none => exact absurd hcc (hc i (List.mem_cons_self i rest))
      | some b => exact ⟨b, rfl⟩
    simp only [Table.get_rows_loop_cond, h1, hb, Option.bind_eq_bind, Option.some_bind,
      List.map_cons, List.filter_cons]
    rw [ih (if b then rows ++ [Row.fromColumnsTotal columns i] else rows)
      (fun j hj => h j (List.mem_cons_of_mem _ hj))
      (fun j hj => hc j (List.mem_cons_of_mem _ hj))]
    cases b with
    | true => simp [hb]
    | false => simp [hb]

/-! ## Concrete exhibits used by the claim theorems -/

/-- Shorthand: binary expression node with both operands present. -/
def binExpr (t : ExpressionType) (l r : Expression) : Expression :=
  Expression.mk t (some l) (some r)

/-- Shorthand: identifier leaf. -/
def identExpr (s : String) : Expression :=
  Expression.leaf (ExpressionType.Identifier s)

/-- Shorthand: integer leaf. -/
def intExpr (n : Int) : Expression :=
  Expression.leaf (ExpressionType.Integer n)

/-- A two-column table (A: Number, B: Text) with no rows, as produced by
`Table::new`. -/
def mismatchTable : Table :=
  Table.new "t" [Column.new "A" FieldType.Number, Column.new "B" FieldType.Text]

/-- The condition `A = 1`. -/
def condA1 : Expression := binExpr ExpressionType.Equal (identExpr "A") (intExpr 1)

/-- The condition `B = 2`. -/
def condB2 : Expression := binExpr ExpressionType.Equal (identExpr "B") (intExpr 2)

/-- The condition `C != 3`. -/
def condC3 : Expression := binExpr ExpressionType.NotEqual (identExpr "C") (intExpr 3)

/-- The condition `(A = 1 OR B = 2) AND C != 3`. -/
def nestedCond : Expression :=
  binExpr ExpressionType.And (binExpr ExpressionType.Or condA1 condB2) condC3

/-- A row with `A = 1`, `B = 2`, `C = 4`. -/
def rowABC : Row :=
  { columns := [("A", FieldValue.Integer 1), ("B", FieldValue.Integer 2),
                ("C", FieldValue.Integer 4)] }

/-- The token sequence for `1 + 2 * 3` (with the `Add`/`Star` operator tokens
the parser's term/factor levels expect). -/
def tokens123 : List Token :=
  [Token.Integer 1, Token.Add, Token.Integer 2, Token.Star, Token.Integer 3]

/-- The parse result the source produces for `tokens123`:
`Multiply(Positive(1, 2), 3)`. -/
def parsedOneTwoThree : Expression :=
  binExpr ExpressionType.Multiply
    (binExpr ExpressionType.Positive (intExpr 1) (intExpr 2))
    (intExpr 3)

/-- A customers table with columns Name (Text) and ID (Number) holding three
rows (IDs 1, 2, 3 in insertion order). -/
def customersT : Table :=
  { name := "customers",
    columns :=
      [ { name := "Name",
          rows := [FieldValue.Text "james", FieldValue.Text "jim", FieldValue.Text "jimmy"],
          field_type := FieldType.Text },
        { name := "ID",
          rows := [FieldValue.Integer 1, FieldValue.Integer 2, FieldValue.Integer 3],
          field_type := FieldType.Number } ] }

/-- The condition `ID > 1`. -/
def idGt1 : Expression := binExpr ExpressionType.GreaterThan (identExpr "ID") (intExpr 1)

/-- A database already containing a table named "customers". -/
def businessDB : Database :=
  { name := "business", config := DatabaseConfig.default,
    tables := [Table.new "customers"
      [Column.new "Name" FieldType.Text, Column.new "ID" FieldType.Number]] }

/-! ## Claim theorems -/

/-- Claim C1 (refuted by the code): inserting the arity-correct value list
`[Integer 1, Integer 2]` into a table with columns (A: Number, B: Text) — the
second value being incompatible with column B — is reported as a *success*
(`new_row` returns no error), and the insertion is not atomic: the compatible
first value is appended to column A while the incompatible second value is
silently dropped, because `Table::new_row` discards the `Result` of
`Column::push`.  The claim instead requires a `MismatchedTypes` failure with
no partial state change. -/
theorem c1_new_row_type_mismatch_silent_partial_append :
    mismatchTable.new_row [FieldValue.Integer 1, FieldValue.Integer 2]
      = (none,
         { name := "t",
           columns :=
             [ { name := "A", rows := [FieldValue.Integer 1],
                 field_type := FieldType.Number },
               { name := "B", rows := [], field_type := FieldType.Text } ] })
    ∧ FieldType.Text.check_field_value_type (FieldValue.Integer 2) = false :=
  ⟨rfl, rfl⟩

/-- Claim C2 (refuted by the code): the equal-column-length invariant is not
preserved by `new_row`.  Starting from a freshly created table (all columns
empty, lengths equal) a single `new_row` call — reported as a success —
leaves column A with one value and column B with none. -/
theorem c2_new_row_breaks_column_length_invariant :
    ((mismatchTable.new_row [FieldValue.Integer 1, FieldValue.Integer 2]).2.columns.map
        (fun c => c.rows.length) = [1, 0])
    ∧ (mismatchTable.new_row [FieldValue.Integer 1, FieldValue.Integer 2]).1 = none :=
  ⟨rfl, rfl⟩

/-- Claim C3 (refuted by the code): on the row (A=1, B=2, C=4) each atomic
sub-condition of `(A = 1 OR B = 2) AND C != 3` evaluates to true, so a
recursive evaluator would return true; but `Row::check_condition` evaluated
on the nested condition returns false, because it converts the `Or` and
`NotEqual` operand subtrees to `FieldValue::None` via
`from_expression_type`'s catch-all and then sends the top-level `And` tag to
its own `_ => false` catch-all.  It never recurses. -/
theorem c3_check_condition_not_recursive :
    rowABC.check_condition nestedCond = some false
    ∧ rowABC.check_condition condA1 = some true
    ∧ rowABC.check_condition condB2 = some true
    ∧ rowABC.check_condition condC3 = some true :=
  ⟨rfl, rfl, rfl, rfl⟩

/-- Claim C4, counterexample: evaluating `"a" < 1` (a Text operand against an
Integer operand) is not an evaluation error — it silently yields `true`
(derived `PartialOrd` orders the `Text` variant before the `Integer`
variant). -/
theorem c4_cross_kind_ordering_not_an_error :
    (Row.mk []).check_condition
      (binExpr ExpressionType.LessThan
        (Expression.leaf (ExpressionType.String "a")) (intExpr 1)) = some true :=
  rfl

/-- Claim C4, amended: evaluating an ordering comparison between a Text value
and an Integer value never fails; it yields the boolean fixed by the variant
declaration order (`Text` before `Integer`): `<` and `<=` are true, `>` and
`>=` are false, for every string, every integer and every row. -/
theorem c4_cross_kind_ordering_follows_variant_order (row : Row) (s : String) (i : Int) :
    row.check_condition (binExpr ExpressionType.LessThan
      (Expression.leaf (ExpressionType.String s)) (intExpr i)) = some true
    ∧ row.check_condition (binExpr ExpressionType.LessThanOrEqual
      (Expression.leaf (ExpressionType.String s)) (intExpr i)) = some true
    ∧ row.check_condition (binExpr ExpressionType.GreaterThan
      (Expression.leaf (ExpressionType.String s)) (intExpr i)) = some false
    ∧ row.check_condition (binExpr ExpressionType.GreaterThanOrEqual
      (Expression.leaf (ExpressionType.String s)) (intExpr i)) = some false :=
  ⟨rfl, rfl, rfl, rfl⟩

/-- Claim C5 (refuted by the code): parsing the token sequence of `1 + 2 * 3`
does not yield `Add(Integer(1), Multiply(Integer(2), Integer(3)))`.  Because
`parse_unary` parses a primary first and then consumes a following `+` as a
binary `Positive` node, the `+` is swallowed below the factor level and the
result is `Multiply(Positive(Integer(1), Integer(2)), Integer(3))` — in
particular the root is never an `Add` node. -/
theorem c5_term_parsing_precedence_inverted :
    (Parser.parse_or (tokens123.length + 1)
        { tokens := tokens123, previous := none }).1 = some parsedOneTwoThree
    ∧ ∀ (l r : Option Expression),
        (Parser.parse_or (tokens123.length + 1)
          { tokens := tokens123, previous := none }).1
          ≠ some (Expression.mk ExpressionType.Add l r) := by
  refine ⟨rfl, fun l r h => ?_⟩
  rw [show (Parser.parse_or (tokens123.length + 1)
      { tokens := tokens123, previous := none }).1 = some parsedOneTwoThree from rfl] at h
  injection h with h2
  injection h2 with ht _ _
  exact ExpressionType.noConfusion ht

/-- Claim C6 (refuted by the code): lexing `a <= 1` yields FOUR tokens — an
extra `Equal` after the `LessThanOrEqual` — because the `<` arm of
`Lexer::lex` only peeks at the following `=` and never consumes it, so the
`=` is dispatched again on the next loop iteration. -/
theorem c6_less_equal_lexes_with_extra_equal_token :
    Lexer.lex "a <= 1"
      = some [Token.Identifier "a", Token.LessThanOrEqual, Token.Equal, Token.Integer 1] := by
  decide

/-- Claim C7 (refuted by the code): both pipeline stages can abort the
process.  Lexing the unterminated string `"abc` reaches
`consume('"')`/`next().unwrap()` at end of input — a panic, modelled `none`;
and `Parser::parse` calls `parse_query(..).unwrap()`, so the grammar
violation of a query starting with `*` panics instead of producing an error
value.  (The source has no LexError/ParseError type at all.) -/
theorem c7_lexer_and_parser_abort_on_malformed_input :
    Lexer.lex "\"abc" = none ∧ Parser.parse [Token.Star] = none :=
  ⟨rfl, rfl⟩

/-- Claim C8, counterexample: `get_rows` does not return a row list for
*every* table — on a zero-column table (reachable via `new_table` with an
empty column list) it indexes `columns[0]` and panics (modelled `none`)
instead of returning the empty row list. -/
theorem c8_get_rows_zero_column_table_aborts :
    (Table.new "empty" []).get_rows none = none :=
  rfl

/-- Claim C8, amended: for every table with at least one column whose columns
all share one length, `get_rows` without a condition returns all rows in
storage order, and — provided the condition's evaluation does not panic on
any row — `get_rows` with a condition returns exactly the rows on which the
condition evaluates to true, preserving storage order. -/
theorem c8_get_rows_filters_preserving_order (t : Table) (c0 : Column)
    (cs : List Column) (cond : Expression)
    (hcols : t.columns = c0 :: cs)
    (hlen : ∀ c ∈ t.columns, c.rows.length = c0.rows.length)
    (hcond : ∀ i ∈ List.range c0.rows.length,
      (Row.fromColumnsTotal t.columns i).check_condition cond ≠ none) :
    t.get_rows none
      = some ((List.range c0.rows.length).map (Row.fromColumnsTotal t.columns))
    ∧ t.get_rows (some cond)
      = some (((List.range c0.rows.length).map (Row.fromColumnsTotal t.columns)).filter
          (fun r => r.check_condition cond == some true)) := by
  have hbound : ∀ i ∈ List.range c0.rows.length, ∀ c ∈ t.columns, i < c.rows.length := by
    intro i hi c hcmem
    rw [hlen c hcmem]
    exact List.mem_range.mp hi
  constructor
  · show Table.get_rows t none = _
    rw [Table.get_rows, hcols]
    simpa using get_rows_loop_all_total (c0 :: cs) (List.range c0.rows.length) []
      (by rw [← hcols]; exact hbound)
  · show Table.get_rows t (some cond) = _
    rw [Table.get_rows, hcols]
    simpa using get_rows_loop_cond_total (c0 :: cs) cond (List.range c0.rows.length) []
      (by rw [← hcols]; exact hbound) (by rw [← hcols]; exact hcond)

/-- Witness for the amended claim C8, on the spec's own example: after IDs
1, 2, 3 are stored, selecting with `ID > 1` returns exactly the rows with
ID 2 and ID 3, in insertion order, and selecting without a condition returns
all three rows. -/
theorem c8_get_rows_filters_preserving_order_witness :
    customersT.get_rows none
      = some [ { columns := [("ID", FieldValue.Integer 1), ("Name", FieldValue.Text "james")] },
               { columns := [("ID", FieldValue.Integer 2), ("Name", FieldValue.Text "jim")] },
               { columns := [("ID", FieldValue.Integer 3), ("Name", FieldValue.Text "jimmy")] } ]
    ∧ customersT.get_rows (some idGt1)
      = some [ { columns := [("ID", FieldValue.Integer 2), ("Name", FieldValue.Text "jim")] },
               { columns := [("ID", FieldValue.Integer 3), ("Name", FieldValue.Text "jimmy")] } ] := by
  have h := c8_get_rows_filters_preserving_order customersT
    { name := "Name",
      rows := [FieldValue.Text "james", FieldValue.Text "jim", FieldValue.Text "jimmy"],
      field_type := FieldType.Text }
    [ { name := "ID",
        rows := [FieldValue.Integer 1, FieldValue.Integer 2, FieldValue.Integer 3],
        field_type := FieldType.Number } ]
    idGt1 rfl (by decide) (by decide)
  exact ⟨h.1.trans (by decide), h.2.trans (by decide)⟩

/-- Claim C9 (confirmed): creating a table under a name some existing table
already bears fails with `TableAlreadyExists` and returns the database
entirely unchanged (no table added, no existing table touched). -/
theorem c9_new_table_conflict_leaves_database_unchanged
    (d : Database) (name : String) (columns : List Column)
    (h : ∃ t ∈ d.tables, t.name = name) :
    d.new_table name columns = (some CoilError.TableAlreadyExists, d) := by
  obtain ⟨t, ht, heq⟩ := h
  have hany : d.tables.any (fun t => t.name == name) = true :=
    List.any_eq_true.mpr ⟨t, ht, by simp [heq]⟩
  simp [Database.new_table, hany]

/-- Witness for claim C9: a database holding a "customers" table rejects a
second "customers" table and is returned unchanged. -/
theorem c9_new_table_conflict_leaves_database_unchanged_witness :
    businessDB.new_table "customers" [] = (some CoilError.TableAlreadyExists, businessDB) :=
  c9_new_table_conflict_leaves_database_unchanged businessDB "customers" []
    ⟨Table.new "customers" [Column.new "Name" FieldType.Text, Column.new "ID" FieldType.Number],
     by decide, rfl⟩

/-- Claim C10 (confirmed): the comparison used by condition evaluation orders
`Integer` and `Float` by variant, not by numeric value: for every integer `i`
and every float `f`, `Integer(i) < Float(f)` evaluates true and
`Integer(i) = Float(f)` evaluates false — there is no numeric promotion. -/
theorem c10_integer_float_compare_by_variant_not_value (i : Int) (f : F64) (row : Row) :
    row.check_condition (binExpr ExpressionType.LessThan
      (intExpr i) (Expression.leaf (ExpressionType.Float f))) = some true
    ∧ row.check_condition (binExpr ExpressionType.Equal
      (intExpr i) (Expression.leaf (ExpressionType.Float f))) = some false :=
  ⟨rfl, rfl⟩

end Coil
